import Mathlib

/-!
# Shallow embedding of the simulation core of `src/game/main.py`

`main.py` is a single-file pygame arcade game ("OVERCLOCK").  This file
embeds the simulation-relevant parts of the program and proves the frozen
claims about them.

Conventions of the embedding:

* pygame `Vector2` floats become rationals (`ℚ`); every constant the
  simulation compares against is a small decimal, exactly representable.
* every circle test `a.distance_to(b) <= r` of the source is embedded as
  `dist2 a b ≤ r ^ 2` — equivalent, since each bound `r` used by the game
  (sums of radii, plus small offsets) is nonnegative.
* rendering/audio-only data (colors, surge trails, particles, screen
  shake, sfx calls) is omitted: the source never feeds it back into the
  simulation state.
* the calls to `random.uniform` that jitter mitosis children and Virus
  death-spawn positions are modelled by an explicit stream of offset
  vectors (`List Vec`), consumed one value per spawn.
* enemy per-frame motion and firing, the hero's movement vector, the
  natural-surge emitters and the normal-fire branch are not modelled:
  they are driven by the RNG / input devices, none of the claims
  constrains them, and none of them changes the enemy population, the
  hero's health/meter rules, the mitosis pass or the cancellation pass
  that the claims are about.
-/

namespace Overclock

/-- 2-D point/vector, `pygame.Vector2` with rational coordinates. -/
abbrev Vec := ℚ × ℚ

/-- Squared Euclidean distance; `a.distance_to(b) <= r` of the source is
embedded as `dist2 a b ≤ r ^ 2`. -/
def dist2 (p q : Vec) : ℚ := (p.1 - q.1) ^ 2 + (p.2 - q.2) ^ 2

/-! ## Constants (`main.py` lines 42-104) -/

def W : ℚ := 960
def H : ℚ := 540
def HERO_R : ℚ := 8
def HERO_IFRAMES : ℚ := 1
def HERO_HP : ℤ := 5
def SURGE_R : ℚ := 5
def SURGE_LEN : ℚ := 19/10
def SURGE_SPEED_PLAYER : ℚ := 560
def SURGE_SPEED_ENEMY : ℚ := 460
def SURGE_SPEED_NATURAL : ℚ := 520
def OC_FILL_PER_CANCEL : ℤ := 8
def OC_FILL_PER_KILL : ℤ := 12
def OC_MAX : ℤ := 200
def OC_SURGE_R : ℚ := 10
def OC_SURGE_SPEED : ℚ := 700
def OC_SURGE_TTL : ℚ := 8/5
def OC_SURGE_DMG : ℤ := 2
def MAX_ENEMIES_ON_FIELD : ℕ := 18
def VIRUS_BASE_R : ℚ := 22
def BUG_R : ℚ := 14
def WORM_R : ℚ := 18

/-- `clamp` helper of the source, on integers (used for the meter). -/
def clampZ (v a b : ℤ) : ℤ := if v < a then a else if v > b then b else v

/-- `clamp` helper of the source, on rationals (used for positions). -/
def clampQ (v a b : ℚ) : ℚ := if v < a then a else if v > b then b else v

/-- `cardinal_from` (lines 138-144): snap a vector to a cardinal unit
vector; zero input falls back to rightward. -/
def cardinal_from (v : Vec) : Vec :=
  if v.1 ^ 2 + v.2 ^ 2 = 0 then (1, 0)
  else if |v.2| ≤ |v.1| then (if 0 ≤ v.1 then ((1 : ℚ), (0 : ℚ)) else (-1, 0))
  else (if 0 ≤ v.2 then ((0 : ℚ), (1 : ℚ)) else (0, -1))

/-! ## Surges (lines 253-274) -/

/-- Owner faction of a surge; `"oc"` is the overclock blast faction. -/
inductive Owner
  | player
  | enemy
  | natural
  | oc
deriving DecidableEq, Repr

structure Surge where
  pos : Vec
  dir : Vec
  speed : ℚ
  ttl : ℚ
  owner : Owner
  r : ℚ
  dmg : ℤ
  pierce : Bool
deriving DecidableEq, Repr

/-- `Surge.__init__` (line 256): the direction is cardinalized at
construction; the trail and color are rendering-only and omitted. -/
def mkSurge (pos dirv : Vec) (speed : ℚ) (owner : Owner)
    (r ttl : ℚ) (dmg : ℤ) (pierce : Bool) : Surge :=
  { pos := pos, dir := cardinal_from dirv, speed := speed, ttl := ttl,
    owner := owner, r := r, dmg := dmg, pierce := pierce }

/-! ## Enemies (lines 291-418) -/

/-- Concrete enemy class; a `Virus` additionally carries its tier.
`type(ei) is type(ej)` of the source compares the class only, never the
tier. -/
inductive EKind
  | virus (tier : ℕ)
  | bug
  | worm
deriving DecidableEq, Repr

/-- Simulation-relevant enemy state.  The randomized motion fields
(`dir`, `turn_bias`, `shoot_t`, `spin`, `angle`) only drive the
RNG-dependent motion/firing behavior that is outside this embedding. -/
structure Enemy where
  kind : EKind
  pos : Vec
  r : ℚ
  hp : ℤ
  repCd : ℚ
deriving DecidableEq, Repr

/-- `Virus.__init__` (lines 345-352): radius/hp from the tier,
`rep_cd = 0` from the `Enemy` base constructor. -/
def mkVirus (pos : Vec) (tier : ℕ) : Enemy :=
  { kind := .virus tier
    pos := pos
    r := if tier = 2 then VIRUS_BASE_R
         else if tier = 1 then VIRUS_BASE_R - 6 else VIRUS_BASE_R - 10
    hp := if tier = 2 then 3 else if tier = 1 then 2 else 1
    repCd := 0 }

/-- `Bug.__init__` (lines 375-378). -/
def mkBug (pos : Vec) : Enemy :=
  { kind := .bug, pos := pos, r := BUG_R, hp := 2, repCd := 0 }

/-- `Worm.__init__` (lines 395-399). -/
def mkWorm (pos : Vec) : Enemy :=
  { kind := .worm, pos := pos, r := WORM_R, hp := 4, repCd := 0 }

/-- `type(ei) is type(ej)` of `handle_enemy_mitosis` (line 766). -/
def sameClass : EKind → EKind → Bool
  | .virus _, .virus _ => true
  | .bug, .bug => true
  | .worm, .worm => true
  | _, _ => false

/-- `Enemy.take_damage` (lines 327-329): subtract damage, report death. -/
def take_damage (e : Enemy) (dmg : ℤ) : Enemy × Bool :=
  let e' := { e with hp := e.hp - dmg }
  (e', decide (e'.hp ≤ 0))

/-- `Virus.on_death` (lines 364-370): a tier `t+1` Virus spawns two
tier-`t` children at jittered positions; tier 0 (and non-Virus enemies,
which the caller never asks) spawn none.  Consumes one jitter vector per
child. -/
def on_death (e : Enemy) (jits : List Vec) : List Enemy × List Vec :=
  match e.kind with
  | .virus (t + 1) =>
      let j1 := jits.headD (0, 0)
      let j2 := (jits.drop 1).headD (0, 0)
      ([mkVirus (e.pos.1 + j1.1, e.pos.2 + j1.2) t,
        mkVirus (e.pos.1 + j2.1, e.pos.2 + j2.2) t], jits.drop 2)
  | _ => ([], jits)

/-! ## Hero (lines 420-478) -/

structure Hero where
  pos : Vec
  r : ℚ
  hp : ℤ
  ifr : ℚ
  cd : ℚ
  face : Vec
  oc_meter : ℤ
deriving DecidableEq, Repr

/-- `Hero.__init__` (lines 422-430). -/
def mkHero (pos : Vec) : Hero :=
  { pos := pos, r := HERO_R, hp := HERO_HP, ifr := 0, cd := 0,
    face := (1, 0), oc_meter := 0 }

/-- `Hero.hurt` (lines 435-439): blocked while the invulnerability timer
is strictly positive, otherwise lose exactly one hit point and restart
the timer. -/
def Hero.hurt (h : Hero) : Hero × Bool :=
  if 0 < h.ifr then (h, false)
  else ({ h with hp := h.hp - 1, ifr := HERO_IFRAMES }, true)

/-- `Hero.add_oc` (lines 441-442). -/
def Hero.add_oc (h : Hero) (v : ℤ) : Hero :=
  { h with oc_meter := clampZ (h.oc_meter + v) 0 OC_MAX }

/-- `Hero.ready_overclock` (lines 444-445). -/
def Hero.ready_overclock (h : Hero) : Bool := decide (OC_MAX ≤ h.oc_meter)

/-- `Hero.reset_overclock` (lines 447-448). -/
def Hero.reset_overclock (h : Hero) : Hero := { h with oc_meter := 0 }

/-- The position-clamp and timer part of `Hero.update` (lines 460-463).
The movement part (lines 451-459) normalizes the held-key vector (an
irrational length on diagonals) and only changes `pos`/`face`; no claim
constrains it. -/
def Hero.updateTimers (h : Hero) (dt : ℚ) : Hero :=
  { h with
    pos := (clampQ h.pos.1 12 (W - 12), clampQ h.pos.2 12 (H - 12))
    ifr := if 0 < h.ifr then max 0 (h.ifr - dt) else h.ifr
    cd := if 0 < h.cd then max 0 (h.cd - dt) else h.cd }

/-! ## Mitosis pass (`Game.handle_enemy_mitosis`, lines 759-788) -/

/-- Loop state of the mitosis pass: the (in-place mutated) enemy list,
the `to_add` accumulator, and the remaining jitter stream. -/
structure MitoSt where
  es : List Enemy
  toAdd : List Enemy
  jits : List Vec
deriving Repr

/-- `Virus(pos, tier=ei.tier) / Bug(pos) / Worm(pos)` choice of
lines 775-780: the child is built from the lower-index parent. -/
def mitoChild : EKind → Vec → Enemy
  | .virus t, p => mkVirus p t
  | .bug, p => mkBug p
  | .worm, p => mkWorm p

/-- Body of the double loop of `handle_enemy_mitosis` for one index pair
`(i, j)` (lines 762-786): same concrete type, neither parent on
cooldown, touching, and the population cap not yet reached ⇒ spawn one
child near the midpoint and put all three on a `0.75 s` cooldown. -/
def mitoPair (st : MitoSt) (ij : ℕ × ℕ) : MitoSt :=
  match st.es.get? ij.1, st.es.get? ij.2 with
  | some ei, some ej =>
    if sameClass ei.kind ej.kind = false then st
    else if 0 < ei.repCd ∨ 0 < ej.repCd then st
    else if dist2 ei.pos ej.pos ≤ (ei.r + ej.r) ^ 2 then
      if MAX_ENEMIES_ON_FIELD ≤ st.es.length + st.toAdd.length then st
      else
        let jit := st.jits.headD (0, 0)
        let cpos : Vec := ((ei.pos.1 + ej.pos.1) / 2 + jit.1,
                           (ei.pos.2 + ej.pos.2) / 2 + jit.2)
        let child := { mitoChild ei.kind cpos with repCd := 3/4 }
        { es := (st.es.set ij.1 { ei with repCd := 3/4 }).set ij.2
                  { ej with repCd := 3/4 }
          toAdd := st.toAdd ++ [child]
          jits := st.jits.drop 1 }
    else st
  | _, _ => st

/-- The index pairs `(i, j)`, `i < j < n`, in the order the double
`for` loop of lines 762-765 visits them. -/
def pairIdx (n : ℕ) : List (ℕ × ℕ) :=
  ((List.range n).map
    (fun i => (List.range (n - (i + 1))).map (fun k => (i, i + 1 + k)))).flatten

/-- `Game.handle_enemy_mitosis` (lines 759-788): run the pair loop, then
`self.enemies.extend(to_add)`.  `len(self.enemies)` is constant during
the loop (only `rep_cd` fields are mutated), so the cap check inside
`mitoPair` reads the same length the source does. -/
def handle_enemy_mitosis (es : List Enemy) (jits : List Vec) :
    List Enemy × List Vec :=
  let st := (pairIdx es.length).foldl mitoPair ⟨es, [], jits⟩
  (st.es ++ st.toAdd, st.jits)

/-! ## Surge cancellation pass (`Game.handle_surge_cancels`, lines 790-816) -/

/-- `is_friend` (line 799). -/
def isFriend : Owner → Bool
  | .player => true
  | .oc => true
  | _ => false

/-- `is_foe` (line 800). -/
def isFoe : Owner → Bool
  | .enemy => true
  | .natural => true
  | _ => false

/-- The "clash" condition of line 801: one side friendly, one hostile. -/
def clash (si sj : Surge) : Bool :=
  (isFriend si.owner && isFoe sj.owner) || (isFriend sj.owner && isFoe si.owner)

/-- Line 802: `si.pos.distance_to(sj.pos) <= (si.r + sj.r + 1)`. -/
def inCancelRange (si sj : Surge) : Bool :=
  decide (dist2 si.pos sj.pos ≤ (si.r + sj.r + 1) ^ 2)

/-- Loop state of the cancellation pass: the `dead` index set (a Python
`set`, modelled as a duplicate-free list) and the hero's meter — the only
part of the hero the pass touches (via `add_oc`). -/
structure CancelSt where
  dead : List ℕ
  meter : ℤ
deriving DecidableEq, Repr

/-- `dead.add k` on the Python `set`. -/
def insertDead (k : ℕ) (l : List ℕ) : List ℕ := if k ∈ l then l else k :: l

/-- `self.hero.add_oc v` restricted to the meter value. -/
def add_oc (m v : ℤ) : ℤ := clampZ (m + v) 0 OC_MAX

/-- Resolution of one eligible pair (lines 801-814), after the surges
have been read: an overclock surge pierces (only the hostile side dies),
otherwise both die; a pairing involving the plain `player` faction feeds
the meter. -/
def cancelPairAux (si sj : Surge) (i j : ℕ) (st : CancelSt) : CancelSt :=
  if clash si sj && inCancelRange si sj then
    { dead :=
        if si.owner = .oc ∧ isFoe sj.owner = true then insertDead j st.dead
        else if sj.owner = .oc ∧ isFoe si.owner = true then insertDead i st.dead
        else insertDead i (insertDead j st.dead)
      meter :=
        if si.owner = .player ∨ sj.owner = .player then
          add_oc st.meter OC_FILL_PER_CANCEL
        else st.meter }
  else st

/-- Body of the inner loop of `handle_surge_cancels` for the pair
`(i, j)` (lines 795-814).  Note the source re-checks `j in dead` here but
NOT `i in dead`: `i`'s deadness is only tested once, before its inner
loop starts. -/
def cancelPair (S : List Surge) (i : ℕ) (st : CancelSt) (j : ℕ) : CancelSt :=
  if j ∈ st.dead then st
  else
    match S.get? i, S.get? j with
    | some si, some sj => cancelPairAux si sj i j st
    | _, _ => st

/-- The inner loop range `range(i+1, len(surges))`. -/
def jIdx (i n : ℕ) : List ℕ := (List.range (n - (i + 1))).map (fun k => i + 1 + k)

/-- One outer-loop iteration (lines 792-794): skip `i` if already dead,
otherwise sweep all `j > i`. -/
def cancelOuter (S : List Surge) (st : CancelSt) (i : ℕ) : CancelSt :=
  if i ∈ st.dead then st else (jIdx i S.length).foldl (cancelPair S i) st

/-- The full double loop of `handle_surge_cancels`, starting from an
empty dead set and the hero's current meter. -/
def cancelFold (S : List Surge) (m : ℤ) : CancelSt :=
  (List.range S.length).foldl (cancelOuter S) ⟨[], m⟩

/-- `Game.handle_surge_cancels` (lines 790-816): run the double loop,
then drop the dead indices (line 816's comprehension) and return the
surviving surges together with the new meter value. -/
def handle_surge_cancels (S : List Surge) (m : ℤ) : List Surge × ℤ :=
  let st := cancelFold S m
  ((S.enum.filter (fun p => !(st.dead.contains p.1))).map Prod.snd, st.meter)

/-! ## Surge-vs-entity hits (`Game.handle_surge_hits`, lines 818-857) -/

/-- The `if len(self.enemies) < MAX_ENEMIES_ON_FIELD: append(child)` loop
of lines 840-842, with `cur` the current length of `self.enemies`. -/
def appendCapped (cur : ℕ) : List Enemy → List Enemy
  | [] => []
  | c :: rest =>
      if cur < MAX_ENEMIES_ON_FIELD then c :: appendCapped (cur + 1) rest
      else appendCapped cur rest

/-- Result of processing one friendly surge against the enemies. -/
structure ScanOut where
  enemies : List Enemy
  consumed : Bool
  hero : Hero
  score : ℤ
  jits : List Vec
deriving Repr

/-- The `for e in list(self.enemies)` scan of one friendly surge
(lines 822-847).  `pending` is the unvisited part of the per-surge
snapshot, `done` the already-visited survivors, `app` the children
appended (at the end of `self.enemies`) so far during this scan; the
current `self.enemies` is always `done ++ pending ++ app`.  On a contact
the enemy takes `s.dmg`, score and (for plain player surges) the meter
are awarded, a dead enemy is removed and its Virus death-spawns appended
subject to the population cap, and a non-piercing surge is consumed and
stops scanning. -/
def friendScan (s : Surge) : List Enemy → List Enemy → List Enemy →
    Hero → ℤ → List Vec → ScanOut
  | [], done, app, hero, score, jits =>
      ⟨done ++ app, false, hero, score, jits⟩
  | e :: rest, done, app, hero, score, jits =>
      if dist2 e.pos s.pos ≤ (e.r + s.r) ^ 2 then
        let td := take_damage e s.dmg
        let hero1 := if s.owner = .player then hero.add_oc OC_FILL_PER_KILL else hero
        let score1 := score + (if s.owner = .player then 45 else 35)
        if td.2 then
          let od := on_death e jits
          let app1 := app ++ appendCapped (done.length + rest.length + app.length) od.1
          let score2 := score1 + (if s.owner = .player then 120 else 90)
          if s.pierce then friendScan s rest done app1 hero1 score2 od.2
          else ⟨done ++ rest ++ app1, true, hero1, score2, od.2⟩
        else
          if s.pierce then friendScan s rest (done ++ [td.1]) app hero1 score1 jits
          else ⟨done ++ [td.1] ++ rest ++ app, true, hero1, score1, jits⟩
      else friendScan s rest (done ++ [e]) app hero score jits

/-- The hostile branch (lines 851-857): a hostile surge touching the hero
is consumed and calls `hurt` (which the invulnerability timer may
block). -/
def hostileHit (s : Surge) (hero : Hero) : Hero × Bool :=
  if dist2 hero.pos s.pos ≤ (hero.r + s.r) ^ 2 then ((hero.hurt).1, true)
  else (hero, false)

/-- Result of the whole surge-hits pass. -/
structure HitsOut where
  survivors : List Surge
  enemies : List Enemy
  hero : Hero
  score : ℤ
  jits : List Vec
deriving Repr

/-- `Game.handle_surge_hits` (lines 818-857): iterate over a snapshot of
the surges; friendly surges scan the enemies, hostile surges test only
the hero.  Surviving surges keep their relative order. -/
def handle_surge_hits : List Surge → List Enemy → Hero → ℤ → List Vec → HitsOut
  | [], es, hero, score, jits => ⟨[], es, hero, score, jits⟩
  | s :: rest, es, hero, score, jits =>
      if isFriend s.owner then
        let o := friendScan s es [] [] hero score jits
        let r := handle_surge_hits rest o.enemies o.hero o.score o.jits
        ⟨(if o.consumed then [] else [s]) ++ r.survivors,
         r.enemies, r.hero, r.score, r.jits⟩
      else
        let hh := hostileHit s hero
        let r := handle_surge_hits rest es hh.1 score jits
        ⟨(if hh.2 then [] else [s]) ++ r.survivors,
         r.enemies, r.hero, r.score, r.jits⟩

/-! ## Hero damage sessions (for the health invariant) -/

/-- `n` successive damage attempts within one frame (hostile-surge or
glitch contacts, lines 727-731 and 851-857, each calling `Hero.hurt`). -/
def hurtN : Hero → ℕ → Hero
  | h, 0 => h
  | h, n + 1 => hurtN (h.hurt).1 n

/-- The damage-relevant part of one `play`-state frame: `Hero.update`
ticks the invulnerability timer down (line 462), then the frame's
contact events call `hurt`. -/
def playFrame (h : Hero) (dt : ℚ) (hits : ℕ) : Hero :=
  hurtN (h.updateTimers dt) hits

/-- A sequence of play frames, each with a frame time and a number of
damage attempts.  Once `hp ≤ 0`, `Game.update` transitions to
`"gameover"` (lines 734-737) and later frames return without advancing —
modelled by the guard. -/
def damageSession (h : Hero) (l : List (ℚ × ℕ)) : Hero :=
  l.foldl (fun h f => if 0 < h.hp then playFrame h f.1 f.2 else h) h

/-! ## Overclock blast (lines 670-675 and 747-757) -/

/-- The four blast directions of line 749. -/
def blastDirs : List Vec := [(1, 0), (-1, 0), (0, 1), (0, -1)]

/-- `Game.fire_overclock_blast` (lines 747-757): append one piercing
overclock surge per cardinal direction at the hero's position, then
reset the meter. -/
def fire_overclock_blast (h : Hero) (S : List Surge) : Hero × List Surge :=
  (h.reset_overclock,
   S ++ blastDirs.map (fun d =>
     mkSurge h.pos d OC_SURGE_SPEED .oc OC_SURGE_R OC_SURGE_TTL OC_SURGE_DMG true))

/-- The blast trigger of `Game.update` (lines 671-675): blast key held
and meter full. -/
def ocBlastTrigger (blastKey : Bool) (h : Hero) (S : List Surge) :
    Hero × List Surge :=
  if blastKey && h.ready_overclock then fire_overclock_blast h S else (h, S)

/-! ## Game state machine and the per-frame update (lines 517-757) -/

inductive GState
  | menu
  | play
  | paused
  | gameover
  | sectorclear
deriving DecidableEq, Repr

/-- The per-frame input snapshot the embedded steps consume. -/
structure Input where
  blast : Bool
deriving DecidableEq, Repr

/-- Simulation-relevant game state.  Particles, screen shake, the
decorative traces, the emitters' schedules and the sector counter are
omitted (cosmetic, or driving only the unmodelled RNG subsystems). -/
structure GameS where
  state : GState
  hero : Hero
  enemies : List Enemy
  surges : List Surge
  glitches : List (Vec × ℚ)
  score : ℤ
  highscore : ℤ
deriving DecidableEq, Repr

/-- Glitch decay (line 712): keep glitches whose alpha stays positive. -/
def glitchDecay (gl : List (Vec × ℚ)) (dt : ℚ) : List (Vec × ℚ) :=
  (gl.filter (fun g => decide (0 < g.2 - dt / 2))).map
    (fun g => (g.1, max 0 (g.2 - dt / 2)))

/-- Glitch-vs-hero contacts (lines 727-731). -/
def glitchHero (gl : List (Vec × ℚ)) (h : Hero) : Hero :=
  gl.foldl
    (fun h g => if dist2 h.pos g.1 ≤ (h.r + 7) ^ 2 then (h.hurt).1 else h) h

/-- The `play`-branch of `Game.update` (lines 664-745), in source order:
hero timers, blast trigger, mitosis, glitch decay, surge cancellation,
surge hits, glitch contacts, win/lose transition.  The steps not
modelled — normal firing (684-690), emitter scheduling (693-699), enemy
updates (702-706), surge motion (715), particles (718) and shake
(744-745) — are RNG/input/clock driven; none of them changes the enemy
count, the hero's health rules or the passes above. -/
def updatePlay (g : GameS) (dt : ℚ) (inp : Input) (jits : List Vec) : GameS :=
  let hero0 := g.hero.updateTimers dt
  let hb := ocBlastTrigger inp.blast hero0 g.surges
  let mi := handle_enemy_mitosis g.enemies jits
  let gl := glitchDecay g.glitches dt
  let ca := handle_surge_cancels hb.2 hb.1.oc_meter
  let hero1 := { hb.1 with oc_meter := ca.2 }
  let hs := handle_surge_hits ca.1 mi.1 hero1 g.score mi.2
  let hero2 := glitchHero gl hs.hero
  if hero2.hp ≤ 0 then
    { g with
      state := .gameover
      hero := hero2
      enemies := hs.enemies
      surges := hs.survivors
      glitches := gl
      score := hs.score
      highscore := max g.highscore hs.score }
  else if hs.enemies.length = 0 then
    { g with
      state := .sectorclear
      hero := hero2
      enemies := hs.enemies
      surges := hs.survivors
      glitches := gl
      score := hs.score
      highscore := max g.highscore hs.score }
  else
    { g with
      state := .play
      hero := hero2
      enemies := hs.enemies
      surges := hs.survivors
      glitches := gl
      score := hs.score }

/-- One iteration of the main loop (lines 646-662): in `"paused"` the
loop only draws (line 651-653); `Game.update` returns immediately in
`"menu"`, `"gameover"` and `"sectorclear"` (lines 659-662); only
`"play"` advances the simulation. -/
def frameStep (g : GameS) (dt : ℚ) (inp : Input) (jits : List Vec) : GameS :=
  if g.state = .paused then g
  else if g.state = .menu then g
  else if g.state = .gameover ∨ g.state = .sectorclear then g
  else updatePlay g dt inp jits

/-! ## Generic helper lemmas -/

lemma foldl_preserve {α β : Type} {P : α → Prop} {f : α → β → α}
    (hf : ∀ a b, P a → P (f a b)) :
    ∀ (l : List β) (a : α), P a → P (l.foldl f a) := by
  intro l
  induction l with
  | nil => intro a h; exact h
  | cons b t ih => intro a h; exact ih (f a b) (hf a b h)

/-! ## Lemmas on the dead set of the cancellation pass -/

lemma self_mem_insertDead (k : ℕ) (l : List ℕ) : k ∈ insertDead k l := by
  unfold insertDead
  split
  · assumption
  · exact List.mem_cons_self k l

lemma mem_insertDead {k m : ℕ} {l : List ℕ} (h : k ∈ l) : k ∈ insertDead m l := by
  unfold insertDead
  split
  · exact h
  · exact List.mem_cons_of_mem m h

lemma mem_insertDead_iff {k m : ℕ} {l : List ℕ} :
    k ∈ insertDead m l ↔ k = m ∨ k ∈ l := by
  unfold insertDead
  split
  · rename_i hm
    constructor
    · exact fun h => Or.inr h
    · rintro (rfl | h)
      exacts [hm, h]
  · simp [List.mem_cons]

lemma cancelPairAux_dead_mono {si sj : Surge} {i j k : ℕ} {st : CancelSt}
    (h : k ∈ st.dead) : k ∈ (cancelPairAux si sj i j st).dead := by
  unfold cancelPairAux
  split
  · dsimp only
    split
    · exact mem_insertDead h
    · split
      · exact mem_insertDead h
      · exact mem_insertDead (mem_insertDead h)
  · exact h

lemma cancelPair_dead_mono {S : List Surge} {i j k : ℕ} {st : CancelSt}
    (h : k ∈ st.dead) : k ∈ (cancelPair S i st j).dead := by
  unfold cancelPair
  split
  · exact h
  · split
    · exact cancelPairAux_dead_mono h
    · exact h

lemma cancelOuter_dead_mono {S : List Surge} {i k : ℕ} {st : CancelSt}
    (h : k ∈ st.dead) : k ∈ (cancelOuter S st i).dead := by
  unfold cancelOuter
  split
  · exact h
  · exact @foldl_preserve CancelSt ℕ (fun st => k ∈ st.dead) (cancelPair S i)
      (fun a b hm => cancelPair_dead_mono hm) _ st h

lemma foldl_outer_mono {S : List Surge} {k : ℕ} (L : List ℕ) {st : CancelSt}
    (h : k ∈ st.dead) : k ∈ (L.foldl (cancelOuter S) st).dead :=
  @foldl_preserve CancelSt ℕ (fun st => k ∈ st.dead) (cancelOuter S)
    (fun a b hm => cancelOuter_dead_mono hm) L st h

lemma foldl_inner_mono {S : List Surge} {i k : ℕ} (L : List ℕ) {st : CancelSt}
    (h : k ∈ st.dead) : k ∈ (L.foldl (cancelPair S i) st).dead :=
  @foldl_preserve CancelSt ℕ (fun st => k ∈ st.dead) (cancelPair S i)
    (fun a b hm => cancelPair_dead_mono hm) L st h

lemma mem_jIdx {i j n : ℕ} : j ∈ jIdx i n ↔ i < j ∧ j < n := by
  unfold jIdx
  simp only [List.mem_map, List.mem_range]
  constructor
  · rintro ⟨k, hk, rfl⟩
    omega
  · rintro ⟨h1, h2⟩
    exact ⟨j - (i + 1), by omega, by omega⟩

/-- Core fact behind C3: for every eligible clash pair `(i, j)`, the pass
marks at least one of the two surges dead. -/
lemma cancel_pair_killed {S : List Surge} {m : ℤ} {i j : ℕ} {si sj : Surge}
    (hij : i < j) (hsi : S.get? i = some si) (hsj : S.get? j = some sj)
    (hcl : clash si sj = true) (hr : inCancelRange si sj = true) :
    i ∈ (cancelFold S m).dead ∨ j ∈ (cancelFold S m).dead := by
  by_cases hiD : i ∈ (cancelFold S m).dead
  · exact Or.inl hiD
  have hin : i < S.length := by
    rcases List.get?_eq_some.mp hsi with ⟨h, -⟩
    exact h
  have hjn : j < S.length := by
    rcases List.get?_eq_some.mp hsj with ⟨h, -⟩
    exact h
  obtain ⟨A, B, hAB⟩ := List.append_of_mem (List.mem_range.mpr hin)
  have hfold : cancelFold S m =
      B.foldl (cancelOuter S) (cancelOuter S (A.foldl (cancelOuter S) ⟨[], m⟩) i) := by
    rw [cancelFold, hAB, List.foldl_append, List.foldl_cons]
  set stA := A.foldl (cancelOuter S) (⟨[], m⟩ : CancelSt) with hstA
  have hiOut : i ∉ (cancelOuter S stA i).dead := fun h =>
    hiD (by rw [hfold]; exact foldl_outer_mono B h)
  have hiA : i ∉ stA.dead := fun h => hiOut (cancelOuter_dead_mono h)
  have houter : cancelOuter S stA i = (jIdx i S.length).foldl (cancelPair S i) stA := by
    unfold cancelOuter
    rw [if_neg hiA]
  have hjJ : j ∈ jIdx i S.length := mem_jIdx.mpr ⟨hij, hjn⟩
  obtain ⟨A2, B2, hAB2⟩ := List.append_of_mem hjJ
  set st2 := A2.foldl (cancelPair S i) stA with hst2
  have hinner : cancelOuter S stA i =
      B2.foldl (cancelPair S i) (cancelPair S i st2 j) := by
    rw [houter, hAB2, List.foldl_append, List.foldl_cons]
  have toD : ∀ k, k ∈ (cancelPair S i st2 j).dead → k ∈ (cancelFold S m).dead := by
    intro k hk
    have h1 : k ∈ (cancelOuter S stA i).dead := by
      rw [hinner]
      exact foldl_inner_mono B2 hk
    rw [hfold]
    exact foldl_outer_mono B h1
  by_cases hj2 : j ∈ st2.dead
  · exact Or.inr (toD j (cancelPair_dead_mono hj2))
  have hpair : cancelPair S i st2 j = cancelPairAux si sj i j st2 := by
    unfold cancelPair
    rw [if_neg hj2, hsi, hsj]
  have hcond : (clash si sj && inCancelRange si sj) = true := by
    rw [hcl, hr]
    rfl
  by_cases hb1 : si.owner = .oc ∧ isFoe sj.owner = true
  · refine Or.inr (toD j ?_)
    rw [hpair]
    unfold cancelPairAux
    rw [if_pos hcond]
    dsimp only
    rw [if_pos hb1]
    exact self_mem_insertDead j _
  by_cases hb2 : sj.owner = .oc ∧ isFoe si.owner = true
  · refine absurd (toD i ?_) hiD
    rw [hpair]
    unfold cancelPairAux
    rw [if_pos hcond]
    dsimp only
    rw [if_neg hb1, if_pos hb2]
    exact self_mem_insertDead i _
  · refine Or.inr (toD j ?_)
    rw [hpair]
    unfold cancelPairAux
    rw [if_pos hcond]
    dsimp only
    rw [if_neg hb1, if_neg hb2]
    exact mem_insertDead (self_mem_insertDead j _)

/-! ## Overclock surges never die in the cancellation pass -/

lemma isFoe_ne_oc {o : Owner} (h : isFoe o = true) : o ≠ .oc := by
  cases o <;> simp_all [isFoe]

lemma clash_oc_left {si sj : Surge} (hcl : clash si sj = true)
    (h : si.owner = .oc) : isFoe sj.owner = true := by
  simp only [clash, Bool.or_eq_true, Bool.and_eq_true] at hcl
  rcases hcl with ⟨-, h2⟩ | ⟨-, h2⟩
  · exact h2
  · rw [h] at h2
    simp [isFoe] at h2

lemma clash_oc_right {si sj : Surge} (hcl : clash si sj = true)
    (h : sj.owner = .oc) : isFoe si.owner = true := by
  simp only [clash, Bool.or_eq_true, Bool.and_eq_true] at hcl
  rcases hcl with ⟨-, h2⟩ | ⟨-, h2⟩
  · rw [h] at h2
    simp [isFoe] at h2
  · exact h2

/-- Invariant: no index of an overclock-faction surge ever enters the
dead set. -/
def OcFree (S : List Surge) (st : CancelSt) : Prop :=
  ∀ k s, S.get? k = some s → s.owner = .oc → k ∉ st.dead

lemma cancelPair_oc_inv {S : List Surge} {i j : ℕ} {st : CancelSt}
    (h : OcFree S st) : OcFree S (cancelPair S i st j) := by
  unfold cancelPair
  split
  · exact h
  split
  · rename_i si sj hsi hsj
    intro k s hk hoc
    unfold cancelPairAux
    split
    · rename_i hcond
      have hcl : clash si sj = true := by
        simp only [Bool.and_eq_true] at hcond
        exact hcond.1
      dsimp only
      split
      · rename_i hb1
        intro hmem
        rcases mem_insertDead_iff.mp hmem with rfl | hmem2
        · have hss : s = sj := Option.some.inj (hk.symm.trans hsj)
          rw [hss] at hoc
          exact isFoe_ne_oc hb1.2 hoc
        · exact h k s hk hoc hmem2
      · split
        · rename_i hb1 hb2
          intro hmem
          rcases mem_insertDead_iff.mp hmem with rfl | hmem2
          · have hss : s = si := Option.some.inj (hk.symm.trans hsi)
            rw [hss] at hoc
            exact isFoe_ne_oc hb2.2 hoc
          · exact h k s hk hoc hmem2
        · rename_i hb1 hb2
          intro hmem
          rcases mem_insertDead_iff.mp hmem with rfl | hmem2
          · have hss : s = si := Option.some.inj (hk.symm.trans hsi)
            rw [hss] at hoc
            exact hb1 ⟨hoc, clash_oc_left hcl hoc⟩
          · rcases mem_insertDead_iff.mp hmem2 with rfl | hmem3
            · have hss : s = sj := Option.some.inj (hk.symm.trans hsj)
              rw [hss] at hoc
              exact hb2 ⟨hoc, clash_oc_right hcl hoc⟩
            · exact h k s hk hoc hmem3
    · exact h k s hk hoc
  · exact h

lemma cancelOuter_oc_inv {S : List Surge} {i : ℕ} {st : CancelSt}
    (h : OcFree S st) : OcFree S (cancelOuter S st i) := by
  unfold cancelOuter
  split
  · exact h
  · exact @foldl_preserve CancelSt ℕ (OcFree S) (cancelPair S i)
      (fun a b hm => cancelPair_oc_inv hm) _ st h

/-- No overclock surge is ever marked dead by the full pass. -/
lemma cancel_oc_never_dead (S : List Surge) (m : ℤ) {k : ℕ} {s : Surge}
    (hk : S.get? k = some s) (hoc : s.owner = .oc) :
    k ∉ (cancelFold S m).dead := by
  have h0 : OcFree S ⟨[], m⟩ := by
    intro k s hk hoc hmem
    simp at hmem
  exact @foldl_preserve CancelSt ℕ (OcFree S) (cancelOuter S)
    (fun a b hm => cancelOuter_oc_inv hm) (List.range S.length) _ h0 k s hk hoc

/-! ## The dead set is duplicate-free (Python `set` semantics) -/

lemma insertDead_nodup {k : ℕ} {l : List ℕ} (h : l.Nodup) :
    (insertDead k l).Nodup := by
  unfold insertDead
  split
  · exact h
  · rename_i hk
    exact List.nodup_cons.mpr ⟨hk, h⟩

lemma cancelPair_nodup {S : List Surge} {i j : ℕ} {st : CancelSt}
    (h : st.dead.Nodup) : (cancelPair S i st j).dead.Nodup := by
  unfold cancelPair
  split
  · exact h
  split
  · unfold cancelPairAux
    split
    · dsimp only
      split
      · exact insertDead_nodup h
      · split
        · exact insertDead_nodup h
        · exact insertDead_nodup (insertDead_nodup h)
    · exact h
  · exact h

lemma cancelOuter_nodup {S : List Surge} {i : ℕ} {st : CancelSt}
    (h : st.dead.Nodup) : (cancelOuter S st i).dead.Nodup := by
  unfold cancelOuter
  split
  · exact h
  · exact @foldl_preserve CancelSt ℕ (fun st => st.dead.Nodup) (cancelPair S i)
      (fun a b hm => cancelPair_nodup hm) _ st h

lemma cancelFold_nodup (S : List Surge) (m : ℤ) :
    (cancelFold S m).dead.Nodup :=
  @foldl_preserve CancelSt ℕ (fun st => st.dead.Nodup) (cancelOuter S)
    (fun a b hm => cancelOuter_nodup hm) (List.range S.length) _ List.nodup_nil

/-! ## Mitosis pass lemmas -/

lemma pairIdx_two : pairIdx 2 = [(0, 1)] := rfl

/-- Exact result of the mitosis pass on a field of two touching,
off-cooldown enemies of the same concrete type. -/
lemma mitosis_pair_eq (e1 e2 : Enemy) (j : Vec) (js : List Vec)
    (hc : sameClass e1.kind e2.kind = true) (h1 : e1.repCd = 0)
    (h2 : e2.repCd = 0)
    (hd : dist2 e1.pos e2.pos ≤ (e1.r + e2.r) ^ 2) :
    handle_enemy_mitosis [e1, e2] (j :: js) =
      ([{ e1 with repCd := 3/4 }, { e2 with repCd := 3/4 },
        { mitoChild e1.kind ((e1.pos.1 + e2.pos.1) / 2 + j.1,
            (e1.pos.2 + e2.pos.2) / 2 + j.2) with repCd := 3/4 }], js) := by
  unfold handle_enemy_mitosis
  rw [show ([e1, e2] : List Enemy).length = 2 from rfl, pairIdx_two]
  simp only [List.foldl_cons, List.foldl_nil]
  unfold mitoPair
  simp only [List.get?_cons_zero, List.get?_cons_succ, hc, h1, h2,
    lt_self_iff_false, or_self, if_false, Bool.true_eq_false, if_true,
    List.length_cons, List.length_nil, List.headD_cons, List.drop_one,
    List.tail_cons, hd, if_true, MAX_ENEMIES_ON_FIELD]
  norm_num [List.set]

/-- A pair step does nothing when every enemy is on mitosis cooldown. -/
lemma mitoPair_skip_of_cd {es toAdd : List Enemy} {jits : List Vec}
    (h : ∀ e ∈ es, 0 < e.repCd) (ij : ℕ × ℕ) :
    mitoPair ⟨es, toAdd, jits⟩ ij = ⟨es, toAdd, jits⟩ := by
  unfold mitoPair
  cases hgi : es.get? ij.1 with
  | none => rfl
  | some ei =>
    cases hgj : es.get? ij.2 with
    | none => rfl
    | some ej =>
      dsimp only
      split
      · rfl
      · rw [if_pos (Or.inl (h ei (List.get?_mem hgi)))]

lemma foldl_fixed {α β : Type} {f : α → β → α} {a : α}
    (h : ∀ b, f a b = a) : ∀ l : List β, l.foldl f a = a := by
  intro l
  induction l with
  | nil => rfl
  | cons b t ih => rw [List.foldl_cons, h b, ih]

/-- The mitosis pass is the identity when every enemy is on cooldown. -/
lemma mitosis_skip_of_cooldown (es : List Enemy) (jits : List Vec)
    (h : ∀ e ∈ es, 0 < e.repCd) :
    handle_enemy_mitosis es jits = (es, jits) := by
  unfold handle_enemy_mitosis
  rw [foldl_fixed (mitoPair_skip_of_cd h) (pairIdx es.length)]
  simp

/-- One pair step never pushes `len(enemies) + len(to_add)` above any
bound that is at least the population cap. -/
lemma mitoPair_len {K : ℕ} (hK : MAX_ENEMIES_ON_FIELD ≤ K) {st : MitoSt}
    (ij : ℕ × ℕ) (h : st.es.length + st.toAdd.length ≤ K) :
    (mitoPair st ij).es.length + (mitoPair st ij).toAdd.length ≤ K := by
  unfold mitoPair
  cases hgi : st.es.get? ij.1 with
  | none => exact h
  | some ei =>
    cases hgj : st.es.get? ij.2 with
    | none => exact h
    | some ej =>
      dsimp only
      split
      · exact h
      split
      · exact h
      split
      · split
        · exact h
        · rename_i hcap
          dsimp only
          simp only [List.length_set, List.length_append, List.length_cons,
            List.length_nil]
          simp only [MAX_ENEMIES_ON_FIELD] at hcap hK
          omega
      · exact h

/-- The mitosis pass keeps the enemy count at or below
`max (previous count) MAX_ENEMIES_ON_FIELD`. -/
lemma mitosis_len (es : List Enemy) (jits : List Vec) :
    (handle_enemy_mitosis es jits).1.length ≤
      max es.length MAX_ENEMIES_ON_FIELD := by
  unfold handle_enemy_mitosis
  have h := @foldl_preserve MitoSt (ℕ × ℕ)
    (fun st => st.es.length + st.toAdd.length ≤ max es.length MAX_ENEMIES_ON_FIELD)
    mitoPair (fun a b hm => mitoPair_len (le_max_right _ _) b hm)
    (pairIdx es.length) ⟨es, [], jits⟩ (by simp)
  simpa using h

/-! ## Surge-hits pass lemmas -/

lemma appendCapped_len (ch : List Enemy) :
    ∀ cur : ℕ, cur + (appendCapped cur ch).length ≤
      max cur MAX_ENEMIES_ON_FIELD := by
  induction ch with
  | nil =>
    intro cur
    simp [appendCapped]
  | cons c rest ih =>
    intro cur
    unfold appendCapped
    split
    · rename_i hlt
      have h2 := ih (cur + 1)
      simp only [List.length_cons]
      simp only [MAX_ENEMIES_ON_FIELD] at *
      omega
    · rename_i hge
      have h2 := ih cur
      simp only [MAX_ENEMIES_ON_FIELD] at *
      omega

lemma friendScan_len (s : Surge) :
    ∀ (pending done app : List Enemy) (h : Hero) (sc : ℤ) (js : List Vec),
      (friendScan s pending done app h sc js).enemies.length ≤
        max (done.length + pending.length + app.length) MAX_ENEMIES_ON_FIELD := by
  intro pending
  induction pending with
  | nil =>
    intro done app h sc js
    unfold friendScan
    dsimp only
    simp only [List.length_append, List.length_nil]
    exact le_max_of_le_left (by omega)
  | cons e rest ih =>
    intro done app h sc js
    unfold friendScan
    split
    · -- contact
      dsimp only
      split
      · -- lethal
        split
        · -- piercing: recursive call with the capped children appended
          refine le_trans (ih _ _ _ _ _) ?_
          have hcap := appendCapped_len (on_death e js).1
            (done.length + rest.length + app.length)
          simp only [List.length_append, List.length_cons] at hcap ⊢
          omega
        · -- consumed: enemies are done ++ rest ++ app ++ capped children
          have hcap := appendCapped_len (on_death e js).1
            (done.length + rest.length + app.length)
          dsimp only
          simp only [List.length_append, List.length_cons] at hcap ⊢
          omega
      · -- non-lethal
        split
        · refine le_trans (ih _ _ _ _ _) ?_
          simp only [List.length_append, List.length_cons, List.length_nil]
          omega
        · dsimp only
          simp only [List.length_append, List.length_cons, List.length_nil]
          omega
    · -- no contact
      refine le_trans (ih _ _ _ _ _) ?_
      simp only [List.length_append, List.length_cons, List.length_nil]
      omega

lemma hits_len : ∀ (S : List Surge) (es : List Enemy) (h : Hero) (sc : ℤ)
    (js : List Vec),
    (handle_surge_hits S es h sc js).enemies.length ≤
      max es.length MAX_ENEMIES_ON_FIELD := by
  intro S
  induction S with
  | nil =>
    intro es h sc js
    unfold handle_surge_hits
    exact le_max_left _ _
  | cons s rest ih =>
    intro es h sc js
    unfold handle_surge_hits
    split
    · dsimp only
      have h1 := friendScan_len s es [] [] h sc js
      have h2 := ih (friendScan s es [] [] h sc js).enemies
        (friendScan s es [] [] h sc js).hero
        (friendScan s es [] [] h sc js).score
        (friendScan s es [] [] h sc js).jits
      simp only [List.length_nil] at h1
      omega
    · dsimp only
      exact ih es _ _ _

/-! ## Hero lemmas -/

lemma hurt_of_ifr {h : Hero} (hifr : 0 < h.ifr) : h.hurt = (h, false) := by
  unfold Hero.hurt
  rw [if_pos hifr]

lemma hurtN_of_ifr {h : Hero} (hifr : 0 < h.ifr) : ∀ n, hurtN h n = h := by
  intro n
  induction n with
  | zero => rfl
  | succ n ih =>
    unfold hurtN
    rw [hurt_of_ifr hifr]
    exact ih

/-- Within one frame the damage attempts cost at most one hit point:
after the first successful `hurt` the invulnerability timer blocks the
rest. -/
lemma hurtN_hp_ge : ∀ (n : ℕ) (h : Hero), h.hp - 1 ≤ (hurtN h n).hp := by
  intro n
  induction n with
  | zero => intro h; dsimp [hurtN]; omega
  | succ n ih =>
    intro h
    unfold hurtN
    by_cases hifr : 0 < h.ifr
    · rw [hurt_of_ifr hifr]
      exact le_trans (by omega) (ih h)
    · unfold Hero.hurt
      rw [if_neg hifr]
      dsimp only
      rw [hurtN_of_ifr (by norm_num [HERO_IFRAMES])]

lemma updateTimers_hp (h : Hero) (dt : ℚ) : (h.updateTimers dt).hp = h.hp := rfl

lemma playFrame_hp {h : Hero} {dt : ℚ} {n : ℕ} (hhp : 0 < h.hp) :
    0 ≤ (playFrame h dt n).hp := by
  unfold playFrame
  have hb := hurtN_hp_ge n (h.updateTimers dt)
  rw [updateTimers_hp] at hb
  omega

lemma damageSession_hp {h : Hero} (l : List (ℚ × ℕ)) (hhp : 0 ≤ h.hp) :
    0 ≤ (damageSession h l).hp := by
  refine @foldl_preserve Hero (ℚ × ℕ) (fun h => 0 ≤ h.hp) _ ?_ l h hhp
  intro a b hm
  dsimp only
  split
  · exact playFrame_hp (by assumption)
  · exact hm

/-! ## Per-frame enemy-population bound -/

lemma updatePlay_enemies_len (g : GameS) (dt : ℚ) (inp : Input)
    (jits : List Vec) :
    (updatePlay g dt inp jits).enemies.length ≤
      max g.enemies.length MAX_ENEMIES_ON_FIELD := by
  unfold updatePlay
  dsimp only
  split
  · dsimp only
    refine le_trans (hits_len _ _ _ _ _) ?_
    have hm := mitosis_len g.enemies jits
    omega
  split
  · dsimp only
    refine le_trans (hits_len _ _ _ _ _) ?_
    have hm := mitosis_len g.enemies jits
    omega
  · dsimp only
    refine le_trans (hits_len _ _ _ _ _) ?_
    have hm := mitosis_len g.enemies jits
    omega

lemma mitoChild_kind (k : EKind) (p : Vec) : (mitoChild k p).kind = k := by
  cases k <;> rfl

/-! ## Concrete example data for witnesses and counterexamples -/

/-- An enemy shot, as fired on lines 359/386/412. -/
def foeSurge (p : Vec) : Surge :=
  mkSurge p (1, 0) SURGE_SPEED_ENEMY .enemy SURGE_R SURGE_LEN 1 false

/-- An enemy shot carrying a damage value of 2 (the `dmg` field is free
at construction; the hero damage rule must ignore it). -/
def foeSurge2 (p : Vec) : Surge :=
  mkSurge p (1, 0) SURGE_SPEED_ENEMY .enemy SURGE_R SURGE_LEN 2 false

/-- A hero shot, as fired by `Hero.shoot` (line 472). -/
def playerSurge (p : Vec) : Surge :=
  mkSurge p (0, 1) SURGE_SPEED_PLAYER .player SURGE_R SURGE_LEN 1 false

/-- A blast surge, as fired by `fire_overclock_blast` (lines 751-754). -/
def ocSurge (p : Vec) : Surge :=
  mkSurge p (1, 0) OC_SURGE_SPEED .oc OC_SURGE_R OC_SURGE_TTL OC_SURGE_DMG true

/-- Put an enemy on mitosis cooldown (as `handle_enemy_mitosis` itself
does on lines 781-783). -/
def cdEnemy (e : Enemy) : Enemy := { e with repCd := 3/4 }

/-- 19 live enemies — the population `build_sector` creates at sector 14
(`9 + 9 + 1` via lines 1002-1007), one more than the cap — here all on
mitosis cooldown, as they are right after a mitosis pass. -/
def es19 : List Enemy :=
  ([mkVirus (96, 96) 2, mkVirus (240, 96) 2, mkVirus (384, 96) 2,
    mkVirus (528, 96) 2, mkVirus (672, 96) 2, mkVirus (816, 96) 2,
    mkVirus (96, 192) 2, mkVirus (240, 192) 2, mkVirus (384, 192) 2,
    mkBug (528, 192), mkBug (672, 192), mkBug (816, 192), mkBug (96, 288),
    mkBug (240, 288), mkBug (384, 288), mkBug (528, 288), mkBug (672, 288),
    mkBug (816, 288), mkWorm (96, 384)]).map cdEnemy

/-- A play state holding the 19 enemies of `es19`. -/
def g19 : GameS :=
  { state := .play, hero := mkHero (480, 270), enemies := es19,
    surges := [], glitches := [], score := 0, highscore := 0 }

/-- A fresh play state with an empty field. -/
def gPlay0 : GameS :=
  { state := .play, hero := mkHero (480, 270), enemies := [],
    surges := [], glitches := [], score := 0, highscore := 0 }

/-- The menu state as built by `Game.__init__`. -/
def gMenu : GameS :=
  { state := .menu, hero := mkHero (480, 270), enemies := [],
    surges := [], glitches := [], score := 0, highscore := 0 }

lemma cancels_nil (m : ℤ) : handle_surge_cancels [] m = ([], m) := rfl

lemma hits_nil (es : List Enemy) (h : Hero) (sc : ℤ) (js : List Vec) :
    handle_surge_hits [] es h sc js = ⟨[], es, h, sc, js⟩ := rfl

lemma glitchHero_nil (h : Hero) : glitchHero [] h = h := rfl

lemma glitchDecay_nil (dt : ℚ) : glitchDecay [] dt = [] := rfl

lemma ocBlastTrigger_false (h : Hero) (S : List Surge) :
    ocBlastTrigger false h S = (h, S) := rfl

/-! ## Claims -/

/-- C1, counterexample to the claim as stated.  The claim quantifies over
every game state in the `"play"` state, but the per-frame update only
*preserves* the cap: it never brings an over-cap population back down.
Over-cap play states are produced by the game itself — `build_sector`
spawns `9 + 9 + 1 = 19 > 18` enemies when sector 14 is reached (lines
1002-1007 with `add = 7`) without any cap check.  Here: a play state with
19 live enemies (all on mitosis cooldown, no surges in flight) still has
19 > MAX_ENEMIES_ON_FIELD enemies after a full frame. -/
theorem c1_counterexample :
    g19.state = .play ∧ g19.enemies.length = 19 ∧
    MAX_ENEMIES_ON_FIELD <
      (frameStep g19 (1/60) ⟨false⟩ []).enemies.length := by
  refine ⟨rfl, rfl, ?_⟩
  have hcd : ∀ e ∈ es19, 0 < e.repCd := by
    intro e he
    simp only [es19, List.mem_map, cdEnemy] at he
    obtain ⟨a, -, rfl⟩ := he
    norm_num
  have hfs : frameStep g19 (1/60) ⟨false⟩ [] =
      updatePlay g19 (1/60) ⟨false⟩ [] := by
    unfold frameStep
    rw [if_neg (by decide), if_neg (by decide), if_neg (by decide)]
  rw [hfs]
  unfold updatePlay
  simp only [show g19.enemies = es19 from rfl,
    show g19.surges = ([] : List Surge) from rfl,
    show g19.glitches = ([] : List (Vec × ℚ)) from rfl,
    mitosis_skip_of_cooldown es19 [] hcd, ocBlastTrigger_false,
    cancels_nil, hits_nil, glitchHero_nil, glitchDecay_nil]
  norm_num [updateTimers_hp, show g19.hero.hp = 5 from rfl, es19, cdEnemy,
    MAX_ENEMIES_ON_FIELD]

/-- C1 (amended): a single per-frame update never *raises* the enemy
population above MAX_ENEMIES_ON_FIELD — if the count is within the cap
before the frame (enemy updates, the mitosis pass and Virus death-spawn
insertion included), it is within the cap afterwards. -/
theorem c1_population_cap (g : GameS) (dt : ℚ) (inp : Input)
    (jits : List Vec) (h : g.enemies.length ≤ MAX_ENEMIES_ON_FIELD) :
    (frameStep g dt inp jits).enemies.length ≤ MAX_ENEMIES_ON_FIELD := by
  unfold frameStep
  split
  · exact h
  split
  · exact h
  split
  · exact h
  · have hb := updatePlay_enemies_len g dt inp jits
    omega

theorem c1_population_cap_witness :
    (frameStep gPlay0 (1/60) ⟨false⟩ []).enemies.length ≤
      MAX_ENEMIES_ON_FIELD :=
  c1_population_cap gPlay0 (1/60) ⟨false⟩ [] (by decide)

/-- C2: over every sequence of play frames with damage events
(hostile-surge or glitch contacts), the hero's health never becomes
negative; and while the invulnerability timer is strictly positive,
`hurt` blocks the damage attempt — it returns `false` and leaves the
hero unchanged. -/
theorem c2_hero_health_invariant (h : Hero) (l : List (ℚ × ℕ)) :
    (0 ≤ h.hp → 0 ≤ (damageSession h l).hp) ∧
    (0 < h.ifr → h.hurt = (h, false)) :=
  ⟨fun hh => damageSession_hp l hh, fun hi => hurt_of_ifr hi⟩

theorem c2_hero_health_invariant_witness :
    0 ≤ (damageSession { mkHero (480, 270) with ifr := 1/2 }
          [(1/60, 3), (1/60, 2)]).hp ∧
    Hero.hurt { mkHero (480, 270) with ifr := 1/2 } =
      ({ mkHero (480, 270) with ifr := 1/2 }, false) :=
  ⟨(c2_hero_health_invariant { mkHero (480, 270) with ifr := 1/2 }
      [(1/60, 3), (1/60, 2)]).1 (by norm_num [mkHero, HERO_HP]),
   (c2_hero_health_invariant { mkHero (480, 270) with ifr := 1/2 }
      [(1/60, 3), (1/60, 2)]).2 (by norm_num [mkHero])⟩

/-- C3, counterexample to the claim as stated.  The pair
`(playerSurge (96,96), foeSurge (98,96))` (indices 1 and 2) is a
friendly/hostile pair within cancellation range, neither of them
overclock-faction — yet after the pass only the player surge is gone:
the hostile surge at index 2 survives, because the player surge had
already been marked dead by its pairing with the hostile surge at
index 0, and the outer loop skips a surge that is dead before its own
iteration starts. -/
theorem c3_counterexample :
    clash (playerSurge (96, 96)) (foeSurge (98, 96)) = true ∧
    inCancelRange (playerSurge (96, 96)) (foeSurge (98, 96)) = true ∧
    (playerSurge (96, 96)).owner ≠ .oc ∧ (foeSurge (98, 96)).owner ≠ .oc ∧
    (handle_surge_cancels
        [foeSurge (96, 96), playerSurge (96, 96), foeSurge (98, 96)] 0).1
      = [foeSurge (98, 96)] := by
  refine ⟨rfl, ?_, by decide, by decide, ?_⟩
  · norm_num [inCancelRange, dist2, playerSurge, foeSurge, mkSurge, SURGE_R]
  · norm_num [handle_surge_cancels, cancelFold, cancelOuter, cancelPair,
      cancelPairAux, jIdx, insertDead, clash, inCancelRange, isFriend, isFoe,
      add_oc, clampZ, dist2, playerSurge, foeSurge, mkSurge, cardinal_from,
      SURGE_R, SURGE_LEN, SURGE_SPEED_ENEMY, SURGE_SPEED_PLAYER,
      OC_FILL_PER_CANCEL, OC_MAX, show List.range 3 = [0, 1, 2] from rfl,
      List.foldl_cons, List.foldl_nil, List.enum, List.enumFrom, List.filter,
      List.contains, List.map]

/-- C3 (amended): for every friendly/hostile surge pair within
cancellation range when the pass runs, at least one of the two is marked
dead (and so removed by the final filter); an overclock surge is never
removed, and its hostile partner always is.  When neither surge is
overclock-faction both are *usually* removed, but not always — see the
counterexample: a surge already dead before its outer iteration resolves
no pairings, so its partner can survive. -/
theorem c3_cancellation_removal (S : List Surge) (m : ℤ) (i j : ℕ)
    (si sj : Surge) (hij : i < j) (hsi : S.get? i = some si)
    (hsj : S.get? j = some sj) (hcl : clash si sj = true)
    (hr : inCancelRange si sj = true) :
    (handle_surge_cancels S m).1 =
      (S.enum.filter (fun p => !((cancelFold S m).dead.contains p.1))).map
        Prod.snd
    ∧ (i ∈ (cancelFold S m).dead ∨ j ∈ (cancelFold S m).dead)
    ∧ (si.owner = .oc → j ∈ (cancelFold S m).dead ∧ i ∉ (cancelFold S m).dead)
    ∧ (sj.owner = .oc → i ∈ (cancelFold S m).dead ∧ j ∉ (cancelFold S m).dead)
    := by
  refine ⟨rfl, cancel_pair_killed hij hsi hsj hcl hr, ?_, ?_⟩
  · intro hoc
    have hnd := cancel_oc_never_dead S m hsi hoc
    exact ⟨(cancel_pair_killed hij hsi hsj hcl hr).resolve_left hnd, hnd⟩
  · intro hoc
    have hnd := cancel_oc_never_dead S m hsj hoc
    exact ⟨(cancel_pair_killed hij hsi hsj hcl hr).resolve_right hnd, hnd⟩

theorem c3_cancellation_removal_witness :
    0 ∈ (cancelFold [playerSurge (96, 96), foeSurge (96, 96)] 0).dead ∨
    1 ∈ (cancelFold [playerSurge (96, 96), foeSurge (96, 96)] 0).dead :=
  (c3_cancellation_removal [playerSurge (96, 96), foeSurge (96, 96)] 0 0 1
    (playerSurge (96, 96)) (foeSurge (96, 96)) (by norm_num) rfl rfl rfl
    (by norm_num [inCancelRange, dist2, playerSurge, foeSurge, mkSurge,
      SURGE_R])).2.1

/-- C4: in the cancellation pass, a resolved pairing that involves an
overclock-faction surge but no plain player-faction surge leaves the
meter unchanged, and a resolved pairing involving a plain player-faction
surge adds exactly OC_FILL_PER_CANCEL, clamped so the result never
exceeds OC_MAX. -/
theorem c4_meter_on_cancel (S : List Surge) (i j : ℕ) (st : CancelSt)
    (si sj : Surge) (hsi : S.get? i = some si) (hsj : S.get? j = some sj)
    (hjd : j ∉ st.dead) (hcl : clash si sj = true)
    (hr : inCancelRange si sj = true) :
    (((si.owner = .oc ∨ sj.owner = .oc) ∧ si.owner ≠ .player ∧
        sj.owner ≠ .player) →
      (cancelPair S i st j).meter = st.meter)
    ∧ ((si.owner = .player ∨ sj.owner = .player) → 0 ≤ st.meter →
      (cancelPair S i st j).meter = min (st.meter + OC_FILL_PER_CANCEL) OC_MAX
      ∧ (cancelPair S i st j).meter ≤ OC_MAX) := by
  have hpair : cancelPair S i st j = cancelPairAux si sj i j st := by
    unfold cancelPair
    rw [if_neg hjd, hsi, hsj]
  have hcond : (clash si sj && inCancelRange si sj) = true := by
    rw [hcl, hr]
    rfl
  rw [hpair]
  unfold cancelPairAux
  rw [if_pos hcond]
  dsimp only
  constructor
  · rintro ⟨-, hp1, hp2⟩
    rw [if_neg]
    rintro (hx | hx)
    exacts [hp1 hx, hp2 hx]
  · intro hp hm
    rw [if_pos hp]
    unfold add_oc clampZ OC_FILL_PER_CANCEL OC_MAX
    constructor
    · split_ifs <;> omega
    · split_ifs <;> omega

theorem c4_meter_on_cancel_witness :
    (cancelPair [ocSurge (96, 96), foeSurge (96, 96)] 0 ⟨[], 7⟩ 1).meter = 7 ∧
    (cancelPair [playerSurge (96, 96), foeSurge (96, 96)] 0 ⟨[], 0⟩ 1).meter =
      min (0 + OC_FILL_PER_CANCEL) OC_MAX := by
  constructor
  · exact (c4_meter_on_cancel [ocSurge (96, 96), foeSurge (96, 96)] 0 1
      ⟨[], 7⟩ (ocSurge (96, 96)) (foeSurge (96, 96)) rfl rfl (by simp) rfl
      (by norm_num [inCancelRange, dist2, ocSurge, foeSurge, mkSurge,
        SURGE_R, OC_SURGE_R])).1 ⟨Or.inl rfl, by decide, by decide⟩
  · exact ((c4_meter_on_cancel [playerSurge (96, 96), foeSurge (96, 96)] 0 1
      ⟨[], 0⟩ (playerSurge (96, 96)) (foeSurge (96, 96)) rfl rfl (by simp) rfl
      (by norm_num [inCancelRange, dist2, playerSurge, foeSurge, mkSurge,
        SURGE_R])).2 (Or.inl rfl) (by norm_num)).1

/-- C5: when the hero's meter is full and the blast input is asserted in
a play-state update, the blast trigger spawns exactly 4 new surges at the
hero's position — one per cardinal direction — each piercing, of
overclock faction and with the blast damage, leaving the previous surges
untouched, and resets the meter to exactly 0. -/
theorem c5_overclock_blast (h : Hero) (S : List Surge) (key : Bool)
    (hkey : key = true) (hm : h.oc_meter = OC_MAX) :
    (ocBlastTrigger key h S).1.oc_meter = 0 ∧
    (ocBlastTrigger key h S).2.length = S.length + 4 ∧
    (ocBlastTrigger key h S).2.take S.length = S ∧
    ((ocBlastTrigger key h S).2.drop S.length).map Surge.dir =
      [(1, 0), (-1, 0), (0, 1), (0, -1)] ∧
    ∀ s ∈ (ocBlastTrigger key h S).2.drop S.length,
      s.owner = .oc ∧ s.pierce = true ∧ s.pos = h.pos ∧
        s.dmg = OC_SURGE_DMG := by
  have hready : h.ready_overclock = true := by
    unfold Hero.ready_overclock
    rw [hm]
    simp
  have htrig : ocBlastTrigger key h S = fire_overclock_blast h S := by
    unfold ocBlastTrigger
    rw [hkey, hready]
    rfl
  rw [htrig]
  unfold fire_overclock_blast Hero.reset_overclock blastDirs
  refine ⟨rfl, by simp, by simp [List.take_left], ?_, ?_⟩
  · rw [List.drop_left]
    simp only [List.map_cons, List.map_nil, mkSurge]
    norm_num [cardinal_from]
  · rw [List.drop_left]
    intro s hs
    simp only [List.map_cons, List.map_nil, List.mem_cons,
      List.not_mem_nil, or_false] at hs
    rcases hs with rfl | rfl | rfl | rfl <;> exact ⟨rfl, rfl, rfl, rfl⟩

theorem c5_overclock_blast_witness :
    (ocBlastTrigger true { mkHero (480, 270) with oc_meter := OC_MAX }
      []).1.oc_meter = 0 ∧
    (ocBlastTrigger true { mkHero (480, 270) with oc_meter := OC_MAX }
      []).2.length = List.length ([] : List Surge) + 4 := by
  have happ := c5_overclock_blast
    { mkHero (480, 270) with oc_meter := OC_MAX } [] true rfl rfl
  exact ⟨happ.1, happ.2.1⟩

/-- C6: a field of exactly two enemies of the same concrete type, both
with mitosis cooldown zero, touching (distance at most the sum of their
radii, stated on squares), and below the population cap: one mitosis
pass spawns exactly one child of that type, places it within the jitter
bound of the pair's midpoint, and puts a positive (0.75 s) cooldown on
both parents and the child. -/
theorem c6_mitosis_spawn (e1 e2 : Enemy) (j : Vec) (js : List Vec)
    (hc : sameClass e1.kind e2.kind = true) (h1 : e1.repCd = 0)
    (h2 : e2.repCd = 0)
    (hd : dist2 e1.pos e2.pos ≤ (e1.r + e2.r) ^ 2)
    (hj1 : |j.1| ≤ 6) (hj2 : |j.2| ≤ 6) :
    ∃ child : Enemy,
      (handle_enemy_mitosis [e1, e2] (j :: js)).1 =
        [{ e1 with repCd := 3/4 }, { e2 with repCd := 3/4 }, child]
      ∧ child.kind = e1.kind ∧ sameClass child.kind e2.kind = true
      ∧ child.repCd = 3/4 ∧ (0 : ℚ) < 3/4
      ∧ |child.pos.1 - (e1.pos.1 + e2.pos.1) / 2| ≤ 6
      ∧ |child.pos.2 - (e1.pos.2 + e2.pos.2) / 2| ≤ 6 := by
  refine ⟨{ mitoChild e1.kind ((e1.pos.1 + e2.pos.1) / 2 + j.1,
      (e1.pos.2 + e2.pos.2) / 2 + j.2) with repCd := 3/4 },
    ?_, ?_, ?_, rfl, by norm_num, ?_, ?_⟩
  · rw [mitosis_pair_eq e1 e2 j js hc h1 h2 hd]
  · exact mitoChild_kind e1.kind _
  · rw [show ({ mitoChild e1.kind ((e1.pos.1 + e2.pos.1) / 2 + j.1,
        (e1.pos.2 + e2.pos.2) / 2 + j.2) with repCd := 3/4 } : Enemy).kind =
        (mitoChild e1.kind ((e1.pos.1 + e2.pos.1) / 2 + j.1,
          (e1.pos.2 + e2.pos.2) / 2 + j.2)).kind from rfl,
      mitoChild_kind]
    exact hc
  · dsimp only
    rw [show (mitoChild e1.kind ((e1.pos.1 + e2.pos.1) / 2 + j.1,
        (e1.pos.2 + e2.pos.2) / 2 + j.2)).pos =
        ((e1.pos.1 + e2.pos.1) / 2 + j.1, (e1.pos.2 + e2.pos.2) / 2 + j.2)
        from by cases hk : e1.kind <;> simp [mitoChild, hk, mkVirus, mkBug, mkWorm]]
    simpa using hj1
  · dsimp only
    rw [show (mitoChild e1.kind ((e1.pos.1 + e2.pos.1) / 2 + j.1,
        (e1.pos.2 + e2.pos.2) / 2 + j.2)).pos =
        ((e1.pos.1 + e2.pos.1) / 2 + j.1, (e1.pos.2 + e2.pos.2) / 2 + j.2)
        from by cases hk : e1.kind <;> simp [mitoChild, hk, mkVirus, mkBug, mkWorm]]
    simpa using hj2

theorem c6_mitosis_spawn_witness :
    ∃ child : Enemy,
      (handle_enemy_mitosis [mkVirus (96, 96) 1, mkVirus (120, 96) 1]
          (((2 : ℚ), (3 : ℚ)) :: [])).1 =
        [{ mkVirus (96, 96) 1 with repCd := 3/4 },
         { mkVirus (120, 96) 1 with repCd := 3/4 }, child]
      ∧ child.kind = (mkVirus (96, 96) 1).kind
      ∧ sameClass child.kind (mkVirus (120, 96) 1).kind = true
      ∧ child.repCd = 3/4 ∧ (0 : ℚ) < 3/4
      ∧ |child.pos.1 - ((mkVirus (96, 96) 1).pos.1 +
          (mkVirus (120, 96) 1).pos.1) / 2| ≤ 6
      ∧ |child.pos.2 - ((mkVirus (96, 96) 1).pos.2 +
          (mkVirus (120, 96) 1).pos.2) / 2| ≤ 6 :=
  c6_mitosis_spawn (mkVirus (96, 96) 1) (mkVirus (120, 96) 1) (2, 3) []
    rfl rfl rfl
    (by norm_num [dist2, mkVirus, VIRUS_BASE_R])
    (by norm_num) (by norm_num)

/-- C7, counterexample to the claim as stated.  With surges
`[enemy@(96,96), player@(96,96), player@(98,96)]`, the enemy surge at
index 0 is marked dead by its pairing with index 1 — yet it goes on to
resolve a second pairing with index 2 in the same inner sweep (the
source only checks `i in dead` before the inner loop starts), killing
the second player surge too and awarding the meter twice: the pass ends
with no survivors and meter `2 * OC_FILL_PER_CANCEL = 16`, where the
claim predicts one survivor and a single award of 8. -/
theorem c7_counterexample :
    (handle_surge_cancels
        [foeSurge (96, 96), playerSurge (96, 96), playerSurge (98, 96)] 0).1
      = [] ∧
    (handle_surge_cancels
        [foeSurge (96, 96), playerSurge (96, 96), playerSurge (98, 96)] 0).2
      = 2 * OC_FILL_PER_CANCEL := by
  constructor <;>
    norm_num [handle_surge_cancels, cancelFold, cancelOuter, cancelPair,
      cancelPairAux, jIdx, insertDead, clash, inCancelRange, isFriend, isFoe,
      add_oc, clampZ, dist2, playerSurge, foeSurge, mkSurge, cardinal_from,
      SURGE_R, SURGE_LEN, SURGE_SPEED_ENEMY, SURGE_SPEED_PLAYER,
      OC_FILL_PER_CANCEL, OC_MAX, show List.range 3 = [0, 1, 2] from rfl,
      List.foldl_cons, List.foldl_nil, List.enum, List.enumFrom, List.filter,
      List.contains, List.map,
      eq_false (show ¬ (Owner.player = Owner.oc) by decide),
      eq_false (show ¬ (Owner.enemy = Owner.oc) by decide),
      eq_false (show ¬ (Owner.enemy = Owner.player) by decide)]

/-- C7 (amended): within one cancellation pass, each surge can be
*removed* at most once — the dead set is duplicate-free — and a surge
that is already dead when its own outer-loop iteration starts resolves
no pairings; but a surge marked dead *during* its own outer iteration
keeps resolving pairings against later surges in that same sweep (see
the counterexample, where each such resolution also awards meter). -/
theorem c7_dead_marking (S : List Surge) (m : ℤ) :
    (cancelFold S m).dead.Nodup ∧
    ∀ (st : CancelSt) (i : ℕ), i ∈ st.dead → cancelOuter S st i = st := by
  refine ⟨cancelFold_nodup S m, ?_⟩
  intro st i hi
  unfold cancelOuter
  rw [if_pos hi]

theorem c7_dead_marking_witness :
    (cancelFold [foeSurge (96, 96), playerSurge (96, 96)] 0).dead.Nodup ∧
    cancelOuter [foeSurge (96, 96), playerSurge (96, 96)]
      ⟨[0], 5⟩ 0 = ⟨[0], 5⟩ :=
  ⟨(c7_dead_marking [foeSurge (96, 96), playerSurge (96, 96)] 0).1,
   (c7_dead_marking [foeSurge (96, 96), playerSurge (96, 96)] 0).2
     ⟨[0], 5⟩ 0 (by simp)⟩

/-- C8: in every state other than `"play"` (menu, paused, gameover,
sectorclear) one frame advances nothing: the whole game state — hero,
enemies, surges, hazards, score and meter included — is unchanged. -/
theorem c8_nonplay_static (g : GameS) (dt : ℚ) (inp : Input)
    (jits : List Vec) (h : g.state ≠ .play) :
    frameStep g dt inp jits = g := by
  unfold frameStep
  rcases hgs : g.state with _ | _ | _ | _ | _
  · simp [hgs]
  · exact absurd hgs h
  · simp [hgs]
  · simp [hgs]
  · simp [hgs]

theorem c8_nonplay_static_witness :
    frameStep gMenu (1/60) ⟨false⟩ [] = gMenu :=
  c8_nonplay_static gMenu (1/60) ⟨false⟩ [] (by decide)

/-- C9: in the mitosis pass two Viruses of different tiers count as the
same concrete type (`type(ei) is type(ej)` compares the class only) and
can spawn a child; the child copies the tier of the lower-index parent
of the pair — so a tier-2 Virus at the lower index and a tier-0 Virus in
contact produce a tier-2 child. -/
theorem c9_virus_mitosis_tier (p1 p2 : Vec) (t1 t2 : ℕ) (j : Vec)
    (js : List Vec) (hne : t1 ≠ t2)
    (hd : dist2 p1 p2 ≤ ((mkVirus p1 t1).r + (mkVirus p2 t2).r) ^ 2) :
    sameClass (mkVirus p1 t1).kind (mkVirus p2 t2).kind = true ∧
    ∃ child : Enemy,
      (handle_enemy_mitosis [mkVirus p1 t1, mkVirus p2 t2] (j :: js)).1 =
        [{ mkVirus p1 t1 with repCd := 3/4 },
         { mkVirus p2 t2 with repCd := 3/4 }, child]
      ∧ child.kind = .virus t1 := by
  refine ⟨rfl, { mitoChild (mkVirus p1 t1).kind
      (((mkVirus p1 t1).pos.1 + (mkVirus p2 t2).pos.1) / 2 + j.1,
       ((mkVirus p1 t1).pos.2 + (mkVirus p2 t2).pos.2) / 2 + j.2)
      with repCd := 3/4 }, ?_, rfl⟩
  rw [mitosis_pair_eq (mkVirus p1 t1) (mkVirus p2 t2) j js rfl rfl rfl hd]

theorem c9_virus_mitosis_tier_witness :
    sameClass (mkVirus (96, 96) 2).kind (mkVirus (96, 96) 0).kind = true ∧
    ∃ child : Enemy,
      (handle_enemy_mitosis [mkVirus (96, 96) 2, mkVirus (96, 96) 0]
          (((0 : ℚ), (0 : ℚ)) :: [])).1 =
        [{ mkVirus (96, 96) 2 with repCd := 3/4 },
         { mkVirus (96, 96) 0 with repCd := 3/4 }, child]
      ∧ child.kind = .virus 2 :=
  c9_virus_mitosis_tier (96, 96) (96, 96) 2 0 (0, 0) [] (by decide)
    (by norm_num [dist2, mkVirus, VIRUS_BASE_R])

/-- C10: a hostile surge hitting the hero always costs exactly one hit
point, whatever the surge's `dmg` field holds — the `dmg` value reaches
only enemies, through `take_damage`, which subtracts it in full. -/
theorem c10_hero_damage_unit (s : Surge) (h : Hero) (es : List Enemy)
    (sc : ℤ) (js : List Vec) (hfoe : isFoe s.owner = true)
    (hc : dist2 h.pos s.pos ≤ (h.r + s.r) ^ 2) (hifr : ¬ 0 < h.ifr) :
    (handle_surge_hits [s] es h sc js).hero.hp = h.hp - 1 ∧
    ∀ (e : Enemy) (d : ℤ), (take_damage e d).1.hp = e.hp - d := by
  constructor
  · have hnf : isFriend s.owner = false := by
      cases ho : s.owner <;> simp_all [isFriend, isFoe]
    unfold handle_surge_hits
    rw [hnf]
    simp only [Bool.false_eq_true, if_false]
    unfold hostileHit
    rw [if_pos hc]
    unfold Hero.hurt
    rw [if_neg hifr]
    rfl
  · intro e d
    rfl

theorem c10_hero_damage_unit_witness :
    (handle_surge_hits [foeSurge2 (96, 96)] [] (mkHero (96, 96)) 0
      []).hero.hp = (mkHero (96, 96)).hp - 1 ∧
    (take_damage (mkBug (96, 96)) 2).1.hp = (mkBug (96, 96)).hp - 2 :=
  ⟨(c10_hero_damage_unit (foeSurge2 (96, 96)) (mkHero (96, 96)) [] 0 []
      rfl (by norm_num [dist2, mkHero, foeSurge2, mkSurge, HERO_R, SURGE_R])
      (by norm_num [mkHero])).1,
   (c10_hero_damage_unit (foeSurge2 (96, 96)) (mkHero (96, 96)) [] 0 []
      rfl (by norm_num [dist2, mkHero, foeSurge2, mkSurge, HERO_R, SURGE_R])
      (by norm_num [mkHero])).2 (mkBug (96, 96)) 2⟩

end Overclock
